import Mathlib

/-!
Shallow embedding of the connection/presence/delivery core of a chat backend
(`app/chat/routes.py`, `app/chat/group_routes.py`, `app/redis_client.py`,
`app/models/*.py`), together with theorems settling the spec claims.

Conventions:
* the Python `dict` `active_connections` is an association list kept
  key-unique (`dict` assignment replaces any previous binding);
* the Redis set `online_users` is a duplicate-free list (`sadd` / `srem`);
* the SQL message table is a list of `Message` rows in insertion order;
  `created_at` is a logical clock assigned at insert time;
* exceptions raised while handling a frame are `Except.error`.
-/

namespace Chat

abbrev UserId := String
abbrev ConnId := Nat
abbrev MessageId := String
abbrev GroupId := String

/-- Delivery status enum `MessageStatus` from `app/models/message.py`. -/
inductive MessageStatus where
  | sent
  | delivered
  | read
deriving DecidableEq, Repr

/-- Numeric rank of a status in the lattice `sent ⊑ delivered ⊑ read`. -/
def MessageStatus.rank : MessageStatus → Nat
  | .sent => 0
  | .delivered => 1
  | .read => 2

/-- Lattice order on delivery statuses. -/
def statusLe (s t : MessageStatus) : Bool := s.rank ≤ t.rank

/-- Join in the status lattice. -/
def statusMax (s t : MessageStatus) : MessageStatus :=
  if statusLe s t then t else s

/-- One row of the `messages` table (`app/models/message.py`). -/
structure Message where
  id : MessageId
  sender_id : UserId
  receiver_id : Option UserId
  group_id : Option GroupId
  content : String
  message_type : String
  file_url : Option String
  status : MessageStatus
  created_at : Nat
deriving DecidableEq, Repr

/-- One row of the `group_members` table (`app/models/group.py`). -/
structure GroupMember where
  id : String
  group_id : GroupId
  user_id : UserId
  is_admin : Bool
deriving DecidableEq, Repr

/-- One row of the `groups` table (`app/models/group.py`); only the fields
the core reads. -/
structure GroupRow where
  id : GroupId
  name : String
  created_by : UserId
deriving DecidableEq, Repr

/-- Whole server state: the `ConnectionManager`'s dict, the Redis
`online_users` set, and the database tables.  `now` is the logical clock
stamped on inserted rows. -/
structure ServerState where
  active_connections : List (UserId × ConnId)
  online_users : List UserId
  messages : List Message
  groups : List GroupRow
  group_members : List GroupMember
  now : Nat
deriving DecidableEq, Repr

def initState : ServerState :=
  { active_connections := [], online_users := [], messages := [],
    groups := [], group_members := [], now := 0 }

/-! ### Dictionary / set primitives -/

/-- Python dict assignment: replace any previous binding for `k`. -/
def dictInsert (k : UserId) (v : ConnId) (d : List (UserId × ConnId)) :
    List (UserId × ConnId) :=
  (k, v) :: d.filter (fun p => p.1 ≠ k)

/-- Python dict deletion (applied only when present in the source; deleting an absent
key is the identity here, matching the guarded `del`). -/
def dictDelete (k : UserId) (d : List (UserId × ConnId)) :
    List (UserId × ConnId) :=
  d.filter (fun p => p.1 ≠ k)

/-- Python dict membership test. -/
def dictContains (k : UserId) (d : List (UserId × ConnId)) : Bool :=
  d.any (fun p => p.1 = k)

/-- Dict lookup. -/
def dictGet (k : UserId) : List (UserId × ConnId) → Option ConnId
  | [] => none
  | p :: ps => if p.1 = k then some p.2 else dictGet k ps

/-- Redis `SADD online_users u` (`set_user_online`, `app/redis_client.py`). -/
def sadd (u : UserId) (s : List UserId) : List UserId :=
  if u ∈ s then s else u :: s

/-- Redis `SREM online_users u` (`set_user_offline`, `app/redis_client.py`). -/
def srem (u : UserId) (s : List UserId) : List UserId :=
  s.filter (fun v => v ≠ u)

/-- Redis `SISMEMBER` (`is_user_online`, `app/redis_client.py`). -/
def is_user_online (st : ServerState) (u : UserId) : Bool :=
  u ∈ st.online_users

/-! ### ConnectionManager (`app/chat/routes.py`, lines 23–43) -/

/-- Method `ConnectionManager.connect`: accept the socket, install it as the live
handle for `user_id` (replacing any previous one), and `set_user_online`. -/
def CM.connect (st : ServerState) (u : UserId) (c : ConnId) : ServerState :=
  { st with active_connections := dictInsert u c st.active_connections,
            online_users := sadd u st.online_users }

/-- Method `ConnectionManager.disconnect`: delete the dict entry if present, then
unconditionally `set_user_offline`.  Note: it receives only the user id,
never a connection handle. -/
def CM.disconnect (st : ServerState) (u : UserId) : ServerState :=
  { st with active_connections := dictDelete u st.active_connections,
            online_users := srem u st.online_users }

/-- Method `ConnectionManager.send_personal_message`: push the event iff the user
has a registered connection; total (no exception), no return value.  We
return the pushes it performs. -/
def CM.sendPersonal (st : ServerState) (event : α) (u : UserId) :
    List (UserId × α) :=
  if dictContains u st.active_connections then [(u, event)] else []

/-- The guard of `send_personal_message`: did the push happen? -/
def CM.sendDelivered (st : ServerState) (u : UserId) : Bool :=
  dictContains u st.active_connections

/-- Connect/disconnect alphabet for reachable registry/presence states. -/
inductive CMOp where
  | connect (u : UserId) (c : ConnId)
  | disconnect (u : UserId)
deriving DecidableEq, Repr

def applyCMOp (st : ServerState) : CMOp → ServerState
  | .connect u c => CM.connect st u c
  | .disconnect u => CM.disconnect st u

def runCMOps (st : ServerState) (ops : List CMOp) : ServerState :=
  ops.foldl applyCMOp st

/-- The presence/registry agreement invariant of the spec (§3, §8). -/
def presenceRegistryAgree (st : ServerState) : Prop :=
  ∀ u : UserId, is_user_online st u = dictContains u st.active_connections

/-! ### Basic lemmas about the primitives -/

theorem dictContains_iff (k : UserId) (d : List (UserId × ConnId)) :
    dictContains k d = true ↔ ∃ p ∈ d, p.1 = k := by
  simp [dictContains, List.any_eq_true]

theorem dictContains_insert (k k' : UserId) (v : ConnId)
    (d : List (UserId × ConnId)) :
    dictContains k (dictInsert k' v d) = true ↔
      (k' = k ∨ dictContains k d = true) := by
  simp only [dictContains_iff, dictInsert, List.mem_cons, List.mem_filter]
  constructor
  · rintro ⟨p, hp | hp, hk⟩
    · exact Or.inl (by simpa [hp] using hk)
    · exact Or.inr ⟨p, hp.1, hk⟩
  · rintro (h | ⟨p, hp, hk⟩)
    · exact ⟨(k', v), Or.inl rfl, h⟩
    · by_cases hpk : p.1 = k'
      · exact ⟨(k', v), Or.inl rfl, (hpk ▸ hk : k' = k)⟩
      · exact ⟨p, Or.inr ⟨hp, by simpa using hpk⟩, hk⟩

theorem dictContains_delete (k k' : UserId) (d : List (UserId × ConnId)) :
    dictContains k (dictDelete k' d) = true ↔
      (dictContains k d = true ∧ k' ≠ k) := by
  simp only [dictContains_iff, dictDelete, List.mem_filter]
  constructor
  · rintro ⟨p, ⟨hp, hne⟩, hk⟩
    refine ⟨⟨p, hp, hk⟩, ?_⟩
    intro h
    exact (by simpa using hne : p.1 ≠ k') (hk.trans h.symm)
  · rintro ⟨⟨p, hp, hk⟩, hne⟩
    exact ⟨p, ⟨hp, by simpa using hk ▸ (fun h => hne h.symm : k ≠ k')⟩, hk⟩

theorem mem_sadd (u v : UserId) (s : List UserId) :
    (u ∈ sadd v s) ↔ (u = v ∨ u ∈ s) := by
  unfold sadd
  by_cases h : v ∈ s
  · simp only [if_pos h]
    constructor
    · exact fun hu => Or.inr hu
    · rintro (rfl | hu)
      · exact h
      · exact hu
  · simp [if_neg h]

theorem mem_srem (u v : UserId) (s : List UserId) :
    (u ∈ srem v s) ↔ (u ∈ s ∧ u ≠ v) := by
  unfold srem
  simp [List.mem_filter]

/-! ### Message table primitives -/

/-- Query `db.query(Message).filter(Message.id == i).first()`. -/
def findMsg : List Message → MessageId → Option Message
  | [], _ => none
  | m :: ms, i => if m.id = i then some m else findMsg ms i

/-- Mutating the status of the ORM row with id `i` (the first match — ids
are primary keys) and committing. -/
def setStatusList : List Message → MessageId → MessageStatus → List Message
  | [], _, _ => []
  | m :: ms, i, s =>
    if m.id = i then { m with status := s } :: ms
    else m :: setStatusList ms i s

def setMessageStatus (st : ServerState) (i : MessageId) (s : MessageStatus) :
    ServerState :=
  { st with messages := setStatusList st.messages i s }

/-- Python truthiness of an `Optional[str]`: `None` and `""` are falsy.
The source branches `if db_message.receiver_id: ... elif db_message.group_id:`. -/
def getTruthy : Option String → Option String
  | none => none
  | some s => if s = "" then none else some s

/-! ### Outbound frames (the dicts pushed over websockets) -/

/-- An outbound websocket push.  `message` carries the snapshot of the row
taken when the response dict was built (routes.py lines 91–104): later
status commits do not alter an already-built response. -/
inductive OutFrame where
  | message (m : Message)
  | typing (sender_id receiver_id : UserId) (is_typing : Bool)
  | read_receipt (message_id : MessageId) (reader_id : UserId)
deriving DecidableEq, Repr

/-- A push addressed to a user's registered connection. -/
abbrev Push := UserId × OutFrame

/-! ### The dispatch handlers of `websocket_endpoint` -/

/-- Decoded payload of a `"message"` frame after the required `content`
lookup succeeded (`MessageCreate`, routes.py lines 66–72). -/
structure MsgData where
  content : String
  message_type : String
  file_url : Option String
  receiver_id : Option UserId
  group_id : Option GroupId
deriving DecidableEq, Repr

/-- Direct-message tail (routes.py lines 107–113): push to the receiver if
connected, then set status to `delivered` — unconditionally on the current
status — whenever Redis says the receiver is online. -/
def directPart (st1 : ServerState) (resp : OutFrame) (mid : MessageId)
    (r : UserId) : ServerState × List Push :=
  let out1 := CM.sendPersonal st1 resp r
  let st2 := if is_user_online st1 r then setMessageStatus st1 mid .delivered
             else st1
  (st2, out1)

/-- Group fan-out (routes.py lines 116–122): if the group row exists, push
to every member whose `user_id` differs from the sender.  No check that the
sender itself is a member. -/
def groupPart (st1 : ServerState) (resp : OutFrame) (u : UserId)
    (g : GroupId) : List Push :=
  match st1.groups.find? (fun gr => gr.id = g) with
  | some _ =>
      ((st1.group_members.filter (fun gm => gm.group_id = g)).filter
        (fun gm => gm.user_id ≠ u)).flatMap
        (fun gm => CM.sendPersonal st1 resp gm.user_id)
  | none => []

/-- Handling one well-formed `"message"` frame (routes.py lines 64–125):
persist with status `sent`, route (direct or group), then always attempt
the echo to the sender's own connection. -/
def handleMessageFrame (st : ServerState) (u : UserId) (mid : MessageId)
    (d : MsgData) : ServerState × List Push :=
  let m : Message :=
    { id := mid, sender_id := u, receiver_id := d.receiver_id,
      group_id := d.group_id, content := d.content,
      message_type := d.message_type, file_url := d.file_url,
      status := .sent, created_at := st.now }
  let st1 := { st with messages := st.messages ++ [m], now := st.now + 1 }
  let resp := OutFrame.message m
  let res :=
    match getTruthy d.receiver_id with
    | some r => directPart st1 resp mid r
    | none =>
      match getTruthy d.group_id with
      | some g => (st1, groupPart st1 resp u g)
      | none => (st1, [])
  (res.1, res.2 ++ CM.sendPersonal res.1 resp u)

/-- Handling a `"typing"` frame (routes.py lines 127–138): not persisted,
pushed to the named receiver only if connected. -/
def handleTyping (st : ServerState) (u : UserId) (r : UserId)
    (b : Bool) : ServerState × List Push :=
  (st, CM.sendPersonal st (OutFrame.typing u r b) r)

/-- Handling a `"read_receipt"` frame (routes.py lines 140–157): look the
message up; if the acknowledging user is its receiver, set status `read`
(unconditionally) and push a read-receipt frame to the original sender if
connected. -/
def handleReadReceipt (st : ServerState) (u : UserId) (mid : MessageId) :
    ServerState × List Push :=
  match findMsg st.messages mid with
  | none => (st, [])
  | some m =>
    if m.receiver_id = some u then
      let st' := setMessageStatus st mid .read
      (st', CM.sendPersonal st' (OutFrame.read_receipt mid u) m.sender_id)
    else (st, [])

/-! ### Raw inbound frames and the session loop -/

/-- Fields a decoded JSON `data` object may or may not carry. -/
structure FrameData where
  content : Option String
  message_type : Option String
  file_url : Option String
  receiver_id : Option UserId
  group_id : Option GroupId
  is_typing : Option Bool
  message_id : Option MessageId
deriving DecidableEq, Repr

def FrameData.empty : FrameData :=
  { content := none, message_type := none, file_url := none,
    receiver_id := none, group_id := none, is_typing := none,
    message_id := none }

/-- One inbound websocket text frame: either text `json.loads` rejects, or
a decoded object with optional `"type"` tag and optional `"data"` object. -/
inductive RawFrame where
  | undecodable
  | obj (ty : Option String) (data : Option FrameData)
deriving DecidableEq, Repr

/-- The body of the receive loop for one frame (routes.py lines 60–157).
`Except.error ()` is an exception escaping the loop body (a `json.loads`
failure or a `KeyError` on a required field); note the inner `try` catches
only `WebSocketDisconnect`, so such an exception propagates. -/
def processFrame (st : ServerState) (u : UserId) (mid : MessageId)
    (f : RawFrame) : Except Unit (ServerState × List Push) :=
  match f with
  | .undecodable => .error ()
  | .obj ty data =>
    match ty with
    | none => .error ()
    | some t =>
      if t = "message" then
        match data with
        | none => .error ()
        | some d =>
          match d.content with
          | none => .error ()
          | some c =>
            .ok (handleMessageFrame st u mid
              { content := c, message_type := d.message_type.getD "text",
                file_url := d.file_url, receiver_id := d.receiver_id,
                group_id := d.group_id })
      else if t = "typing" then
        match data with
        | none => .error ()
        | some d =>
          match d.receiver_id, d.is_typing with
          | some r, some b => .ok (handleTyping st u r b)
          | some _, none => .error ()
          | none, _ => .error ()
      else if t = "read_receipt" then
        match data with
        | none => .error ()
        | some d =>
          match d.message_id with
          | some i => .ok (handleReadReceipt st u i)
          | none => .error ()
      else .ok (st, [])

/-- Fresh server-assigned message ids (`str(uuid.uuid4())` is fresh per
frame; modelled by a counter). -/
def mkMsgId (n : Nat) : MessageId := "auto-" ++ toString n

/-- How a session ends. -/
inductive SessionEnd where
  | disconnected
  /-- The outer `except Exception` ran `websocket.close(code=1008)`; note
  it does NOT call `manager.disconnect`. -/
  | closedPolicyViolation
deriving DecidableEq, Repr

/-- The `Open`-state receive loop over a finite inbound frame sequence,
ended by a transport disconnect (routes.py lines 57–163).  On a frame
whose processing raises, the loop stops: the outer handler closes the
socket with code 1008 and the registry entry is left in place.  On
transport disconnect, `manager.disconnect` runs. -/
def runLoop (st : ServerState) (u : UserId) (n : Nat) :
    List RawFrame → ServerState × List Push × SessionEnd
  | [] => (CM.disconnect st u, [], .disconnected)
  | f :: fs =>
    match processFrame st u (mkMsgId n) f with
    | .error () => (st, [], .closedPolicyViolation)
    | .ok (st', out) =>
      let rest := runLoop st' u (n + 1) fs
      (rest.1, out ++ rest.2.1, rest.2.2)

/-! ### History fetch (`get_chat_history`, routes.py lines 166–203) -/

/-- Insert a message into a list kept sorted by `created_at` descending. -/
def insertDesc (m : Message) : List Message → List Message
  | [] => [m]
  | x :: xs =>
    if x.created_at < m.created_at then m :: x :: xs else x :: insertDesc m xs

/-- Sorting for `order_by(Message.created_at.desc())`. -/
def sortByCreatedDesc (l : List Message) : List Message :=
  l.foldr insertDesc []

/-- The conversation filter of `get_chat_history`. -/
def convoFilter (current peer : UserId) (m : Message) : Bool :=
  (m.sender_id = current ∧ m.receiver_id = some peer) ∨
    (m.sender_id = peer ∧ m.receiver_id = some current)

/-- The page of rows the query returns: the conversation, ordered by
`created_at` descending, after `offset(skip).limit(limit)`. -/
def pageOf (st : ServerState) (current peer : UserId) (skip limit : Nat) :
    List Message :=
  ((sortByCreatedDesc (st.messages.filter (convoFilter current peer))).drop
    skip).take limit

/-- The ids the mark-as-read loop touches: page rows addressed to the
caller whose status is not yet `read`. -/
def toMarkIds (st : ServerState) (current peer : UserId)
    (skip limit : Nat) : List MessageId :=
  ((pageOf st current peer skip limit).filter
    (fun m => m.receiver_id = some current ∧ m.status ≠ .read)).map
    (fun m => m.id)

/-- The ORM mutation `message.status = READ` applied to the rows whose id
the loop touched. -/
def markRead (ids : List MessageId) (m : Message) : Message :=
  if m.id ∈ ids then { m with status := .read } else m

/-- Route `get_chat_history`: select the conversation page (sorted descending,
then `offset skip`, `limit`), mark each page row whose receiver is the
caller and whose status is not yet `read` as `read`, commit, and return
the (now mutated) page with the total count.  Rows are keyed by their
primary-key id. -/
def get_chat_history (st : ServerState) (current peer : UserId)
    (skip limit : Nat) : ServerState × List Message × Nat :=
  let toMark := toMarkIds st current peer skip limit
  ({ st with messages := st.messages.map (markRead toMark) },
   (pageOf st current peer skip limit).map (markRead toMark),
   (st.messages.filter (convoFilter current peer)).length)

/-! ### Member removal (`remove_group_member`, group_routes.py 279–337) -/

inductive ApiError where
  | groupNotFound
  | memberNotFound
  | forbidden
  | lastAdmin
deriving DecidableEq, Repr

/-- Number of admin membership rows of group `g`. -/
def adminCount (rows : List GroupMember) (g : GroupId) : Nat :=
  (rows.filter (fun gm => gm.group_id = g ∧ gm.is_admin)).length

/-- Row deletion `db.delete(member)`: remove that row (first occurrence). -/
def eraseRow : List GroupMember → GroupMember → List GroupMember
  | [], _ => []
  | x :: xs, a => if x = a then xs else eraseRow xs a |> (x :: ·)

/-- The admin-authorization query of the group routes: does a membership
row exist for (`gid`, `u`) with the admin flag set? -/
def isAdminOf (st : ServerState) (gid : GroupId) (u : UserId) : Bool :=
  st.group_members.any
    (fun gm => gm.group_id = gid ∧ gm.user_id = u ∧ gm.is_admin)

/-- Route `remove_group_member` (group_routes.py lines 279–337): 404 if the group
or the member row is missing; non-admins may remove only themselves; a
member who is an admin is removable only if the group has at least two
admin rows; on success the row is deleted. -/
def remove_group_member (st : ServerState) (current : UserId)
    (gid : GroupId) (mid : String) : Except ApiError ServerState :=
  match st.groups.find? (fun gr => gr.id = gid) with
  | none => .error .groupNotFound
  | some _ =>
    match st.group_members.find?
        (fun gm => gm.id = mid ∧ gm.group_id = gid) with
    | none => .error .memberNotFound
    | some member =>
      if member.user_id ≠ current ∧ isAdminOf st gid current = false then
        .error .forbidden
      else if member.is_admin ∧ adminCount st.group_members gid ≤ 1 then
        .error .lastAdmin
      else .ok { st with
        group_members := eraseRow st.group_members member }

/-! ### The status-transition alphabet (for the delivery state machine) -/

/-- The three persisted-status writes in the source, as functions of the
current stored status:
* `deliveredT` — routes.py line 112: `db_message.status = DELIVERED`
  (no guard on the current status);
* `readReceiptT` — routes.py line 146: `message.status = READ`;
* `historyReadT` — routes.py lines 198–199:
  `if message.status != READ: message.status = READ`. -/
inductive TransKind where
  | deliveredT
  | readReceiptT
  | historyReadT
deriving DecidableEq, Repr

def applyTrans (s : MessageStatus) : TransKind → MessageStatus
  | .deliveredT => .delivered
  | .readReceiptT => .read
  | .historyReadT => if s = .read then s else .read

def runTrans (s : MessageStatus) (ts : List TransKind) : MessageStatus :=
  ts.foldl applyTrans s

/-- Every status the store passes through, starting status included. -/
def statusTrace (s : MessageStatus) : List TransKind → List MessageStatus
  | [] => [s]
  | k :: ks => s :: statusTrace (applyTrans s k) ks

/-- The maximum status reached along a run. -/
def maxReached (s : MessageStatus) (ts : List TransKind) : MessageStatus :=
  (statusTrace s ts).foldl statusMax .sent

/-- Property that no earlier status is ever written after a later one. -/
def traceMonotone (s : MessageStatus) (ts : List TransKind) : Prop :=
  List.Chain' (fun a b => statusLe a b = true) (statusTrace s ts)

/-! ## C2: presence iff registry entry, over all connect/disconnect runs -/

theorem presenceRegistryAgree_init : presenceRegistryAgree initState := by
  intro u
  rfl

theorem presenceRegistryAgree_step (st : ServerState) (op : CMOp)
    (h : presenceRegistryAgree st) :
    presenceRegistryAgree (applyCMOp st op) := by
  have hiff : ∀ u : UserId,
      (u ∈ st.online_users ↔ dictContains u st.active_connections = true) := by
    intro u
    have hu := h u
    rw [is_user_online] at hu
    rw [← hu, decide_eq_true_iff]
  cases op with
  | connect v c =>
    intro u
    rw [Bool.eq_iff_iff]
    show (is_user_online (CM.connect st v c) u = true) ↔ _
    rw [is_user_online, decide_eq_true_iff]
    show u ∈ sadd v st.online_users ↔ _
    rw [mem_sadd]
    show _ ↔ dictContains u (dictInsert v c st.active_connections) = true
    rw [dictContains_insert]
    constructor
    · rintro (rfl | hu)
      · exact Or.inl rfl
      · exact Or.inr ((hiff u).mp hu)
    · rintro (rfl | hu)
      · exact Or.inl rfl
      · exact Or.inr ((hiff u).mpr hu)
  | disconnect v =>
    intro u
    rw [Bool.eq_iff_iff]
    show (is_user_online (CM.disconnect st v) u = true) ↔ _
    rw [is_user_online, decide_eq_true_iff]
    show u ∈ srem v st.online_users ↔ _
    rw [mem_srem]
    show _ ↔ dictContains u (dictDelete v st.active_connections) = true
    rw [dictContains_delete]
    constructor
    · rintro ⟨hu, hne⟩
      exact ⟨(hiff u).mp hu, fun hv => hne hv.symm⟩
    · rintro ⟨hu, hne⟩
      exact ⟨(hiff u).mpr hu, fun hv => hne hv.symm⟩

theorem presenceRegistryAgree_runCMOps (st : ServerState) (ops : List CMOp)
    (h : presenceRegistryAgree st) :
    presenceRegistryAgree (runCMOps st ops) := by
  induction ops generalizing st with
  | nil => exact h
  | cons op ops ih =>
    exact ih (applyCMOp st op) (presenceRegistryAgree_step st op h)

/-- C2: for every user U and every state reachable by any interleaving of
connect and disconnect operations (stale disconnects racing newer connects
included), `is_user_online U` agrees exactly with the connection registry
holding an entry for U: the Redis presence set and the
`active_connections` dict never disagree after any operation completes. -/
theorem C2_presence_iff_registry (ops : List CMOp) (u : UserId) :
    is_user_online (runCMOps initState ops) u =
      dictContains u (runCMOps initState ops).active_connections :=
  presenceRegistryAgree_runCMOps initState ops presenceRegistryAgree_init u

/-! ## C7: what `disconnect` actually does -/

theorem dictGet_dictDelete_self (k : UserId) (d : List (UserId × ConnId)) :
    dictGet k (dictDelete k d) = none := by
  induction d with
  | nil => rfl
  | cons p ps ih =>
    unfold dictDelete at ih ⊢
    by_cases hp : p.1 = k
    · simpa [List.filter_cons, hp] using ih
    · simpa [List.filter_cons, hp, dictGet] using ih

/-- C7 counterexample: connect user "u" with connection 1, then with a
newer connection 2, then run the stale disconnect for "u".  The claim says
the newer connection 2 stays registered and "u" stays online; in the code
`disconnect` takes no connection argument, removes whatever is registered
and unconditionally marks the user offline, so the registry entry is gone
and the user is offline. -/
theorem C7_counterexample :
    dictGet "u"
        (runCMOps initState
          [.connect "u" 1, .connect "u" 2, .disconnect "u"]).active_connections
      = none ∧
    is_user_online
        (runCMOps initState [.connect "u" 1, .connect "u" 2, .disconnect "u"])
        "u" = false ∧
    dictGet "u"
        (runCMOps initState
          [.connect "u" 1, .connect "u" 2, .disconnect "u"]).active_connections
      ≠ some 2 := by
  exact ⟨rfl, rfl, by decide⟩

/-- C7 amended: `disconnect(user_id)` receives no connection handle; it
deletes whatever entry is currently registered for that user and always
calls `set_user_offline`, even when there was nothing to remove.  In
particular a stale disconnect that runs after a newer connect for the same
user removes the newer connection and marks the user offline (the two
stores still agree with each other). -/
theorem C7_disconnect_unconditional (st : ServerState) (u : UserId)
    (c1 c2 : ConnId) :
    (dictGet u (CM.disconnect st u).active_connections = none ∧
      is_user_online (CM.disconnect st u) u = false) ∧
    (dictGet u
        (runCMOps st [.connect u c1, .connect u c2, .disconnect u]).active_connections
      = none ∧
      is_user_online
        (runCMOps st [.connect u c1, .connect u c2, .disconnect u]) u
      = false) := by
  have hoff : ∀ s : ServerState, is_user_online (CM.disconnect s u) u = false := by
    intro s
    show decide (u ∈ srem u s.online_users) = false
    simp [mem_srem]
  refine ⟨⟨dictGet_dictDelete_self u _, hoff st⟩, ?_, hoff _⟩
  exact dictGet_dictDelete_self u _

/-! ## C1: the delivery-status state machine -/

theorem applyTrans_of_ne_delivered (s : MessageStatus) (k : TransKind)
    (hk : k ≠ TransKind.deliveredT) : applyTrans s k = .read := by
  cases k with
  | deliveredT => exact absurd rfl hk
  | readReceiptT => rfl
  | historyReadT => cases s <;> rfl

theorem statusTrace_all_read (rs : List TransKind)
    (hr : ∀ k ∈ rs, k ≠ TransKind.deliveredT) (s : MessageStatus) :
    statusTrace s rs = s :: List.replicate rs.length .read := by
  induction rs generalizing s with
  | nil => rfl
  | cons k ks ih =>
    have hk := hr k (List.mem_cons_self k ks)
    have hks : ∀ k' ∈ ks, k' ≠ TransKind.deliveredT :=
      fun k' hk' => hr k' (List.mem_cons_of_mem k hk')
    have hstep : applyTrans s k = .read := applyTrans_of_ne_delivered s k hk
    calc statusTrace s (k :: ks) = s :: statusTrace (applyTrans s k) ks := rfl
      _ = s :: statusTrace MessageStatus.read ks := by rw [hstep]
      _ = s :: (MessageStatus.read :: List.replicate ks.length .read) := by
            rw [ih hks]
      _ = s :: List.replicate (k :: ks).length .read := by
            rw [List.length_cons, List.replicate_succ]

theorem statusTrace_shape (s : MessageStatus) (ds rs : List TransKind)
    (hd : ∀ k ∈ ds, k = TransKind.deliveredT)
    (hr : ∀ k ∈ rs, k ≠ TransKind.deliveredT) :
    statusTrace s (ds ++ rs) =
      s :: (List.replicate ds.length .delivered ++
        List.replicate rs.length .read) := by
  induction ds generalizing s with
  | nil => simpa using statusTrace_all_read rs hr s
  | cons k ks ih =>
    have hk : k = TransKind.deliveredT := hd k (List.mem_cons_self k ks)
    have hks : ∀ k' ∈ ks, k' = TransKind.deliveredT :=
      fun k' hk' => hd k' (List.mem_cons_of_mem k hk')
    have hstep : applyTrans s k = .delivered := by rw [hk]; rfl
    calc statusTrace s ((k :: ks) ++ rs)
        = s :: statusTrace (applyTrans s k) (ks ++ rs) := rfl
      _ = s :: statusTrace MessageStatus.delivered (ks ++ rs) := by rw [hstep]
      _ = s :: (MessageStatus.delivered ::
            (List.replicate ks.length .delivered ++
              List.replicate rs.length .read)) := by
            rw [ih MessageStatus.delivered hks]
      _ = _ := by
            rw [List.length_cons, List.replicate_succ, List.cons_append]

theorem runTrans_append (s : MessageStatus) (ts1 ts2 : List TransKind) :
    runTrans s (ts1 ++ ts2) = runTrans (runTrans s ts1) ts2 := by
  simp [runTrans]

theorem runTrans_all_delivered (ds : List TransKind)
    (hd : ∀ k ∈ ds, k = TransKind.deliveredT) (s : MessageStatus)
    (hne : ds ≠ []) : runTrans s ds = .delivered := by
  induction ds generalizing s with
  | nil => exact absurd rfl hne
  | cons k ks ih =>
    have hk : k = TransKind.deliveredT := hd k (List.mem_cons_self k ks)
    have hks : ∀ k' ∈ ks, k' = TransKind.deliveredT :=
      fun k' hk' => hd k' (List.mem_cons_of_mem k hk')
    show runTrans (applyTrans s k) ks = .delivered
    cases ks with
    | nil => rw [hk]; rfl
    | cons k2 ks2 => exact ih hks _ (by simp)

theorem runTrans_all_read (rs : List TransKind)
    (hr : ∀ k ∈ rs, k ≠ TransKind.deliveredT) (s : MessageStatus)
    (hne : rs ≠ []) : runTrans s rs = .read := by
  induction rs generalizing s with
  | nil => exact absurd rfl hne
  | cons k ks ih =>
    have hk := hr k (List.mem_cons_self k ks)
    have hks : ∀ k' ∈ ks, k' ≠ TransKind.deliveredT :=
      fun k' hk' => hr k' (List.mem_cons_of_mem k hk')
    show runTrans (applyTrans s k) ks = .read
    cases ks with
    | nil => rw [applyTrans_of_ne_delivered s k hk]; rfl
    | cons k2 ks2 => exact ih hks _ (by simp)

theorem statusMax_statusMax_self (a b : MessageStatus) :
    statusMax (statusMax a b) b = statusMax a b := by
  cases a <;> cases b <;> rfl

theorem foldl_statusMax_replicate (a b : MessageStatus) (n : Nat) :
    (List.replicate n b).foldl statusMax a =
      if n = 0 then a else statusMax a b := by
  induction n generalizing a with
  | zero => rfl
  | succ n ih =>
    rw [List.replicate_succ, List.foldl_cons, ih (statusMax a b)]
    cases n with
    | zero => simp
    | succ m => simp [statusMax_statusMax_self]

theorem chain'_statusLe_replicate (n : Nat) (x : MessageStatus) :
    List.Chain' (fun a b => statusLe a b = true) (List.replicate n x) := by
  induction n with
  | zero => simp
  | succ n ih =>
    cases n with
    | zero => simp
    | succ m =>
      rw [List.replicate_succ]
      rw [List.replicate_succ] at ih ⊢
      exact List.Chain'.cons (by cases x <;> rfl) ih

theorem statusLe_read (x : MessageStatus) : statusLe x .read = true := by
  cases x <;> rfl

theorem statusLe_sent (x : MessageStatus) : statusLe .sent x = true := by
  cases x <;> rfl

theorem chain'_delivered_read (a b : Nat) :
    List.Chain' (fun x y => statusLe x y = true)
      (List.replicate a MessageStatus.delivered ++
        List.replicate b MessageStatus.read) := by
  induction a with
  | zero => simpa using chain'_statusLe_replicate b .read
  | succ n ih =>
    rw [List.replicate_succ, List.cons_append]
    refine List.chain'_cons'.mpr ⟨?_, ih⟩
    intro y hy
    have hmem : y ∈ List.replicate n MessageStatus.delivered ++
        List.replicate b MessageStatus.read := by
      exact List.mem_of_mem_head? hy
    rcases List.mem_append.mp hmem with h | h
    · rw [List.eq_of_mem_replicate h]; rfl
    · rw [List.eq_of_mem_replicate h]; rfl

/-- C1 counterexample: start from the initial stored status `sent` and run
the read-receipt transition followed by the delivered transition (the
interleaving in which the receiver's read receipt is committed between the
message insert and the sender-side delivered write).  The final stored
status is `delivered` although the maximum status reached is `read`: the
delivered write (routes.py line 112) is not guarded by the current status,
so an earlier status is written after a later one and the run is not
monotone. -/
theorem C1_counterexample :
    runTrans .sent [.readReceiptT, .deliveredT] = .delivered ∧
    maxReached .sent [.readReceiptT, .deliveredT] = .read ∧
    runTrans .sent [.readReceiptT, .deliveredT] ≠
      maxReached .sent [.readReceiptT, .deliveredT] ∧
    ¬ traceMonotone .sent [.readReceiptT, .deliveredT] := by
  refine ⟨rfl, rfl, by decide, ?_⟩
  intro h
  have : statusLe .read .delivered = true :=
    (List.chain'_cons.mp (List.chain'_cons.mp h).2).1
  exact absurd this (by decide)

/-- Reflexivity of the status order. -/
theorem statusLe_refl (x : MessageStatus) : statusLe x x = true := by
  cases x <;> rfl

/-- C1 amended: the two read transitions (read receipt, history fetch)
always write `read`, never a lower status; the delivered transition,
however, writes `delivered` unconditionally, even over a stored `read`.
Monotonicity therefore holds exactly for runs in which no delivered
transition is applied after a read transition: for every such run from the
initial status `sent`, the final stored status equals the maximum status
reached and no earlier status is ever written after a later one. -/
theorem C1_status_monotone_amended (ds rs : List TransKind)
    (hd : ∀ k ∈ ds, k = TransKind.deliveredT)
    (hr : ∀ k ∈ rs, k ≠ TransKind.deliveredT) :
    runTrans .sent (ds ++ rs) = maxReached .sent (ds ++ rs) ∧
    traceMonotone .sent (ds ++ rs) := by
  have hshape := statusTrace_shape .sent ds rs hd hr
  constructor
  · rw [maxReached, hshape, List.foldl_cons, List.foldl_append,
      foldl_statusMax_replicate, foldl_statusMax_replicate, runTrans_append]
    by_cases hds : ds = []
    · by_cases hrs : rs = []
      · subst hds; subst hrs; rfl
      · have hlen : rs.length ≠ 0 := fun h => hrs (List.length_eq_zero.mp h)
        rw [runTrans_all_read rs hr _ hrs]
        subst hds
        simp only [runTrans, List.foldl_nil, List.length_nil, if_pos rfl,
          if_neg hlen]
        rfl
    · have hdlen : ds.length ≠ 0 := fun h => hds (List.length_eq_zero.mp h)
      rw [runTrans_all_delivered ds hd _ hds]
      by_cases hrs : rs = []
      · subst hrs
        simp only [runTrans, List.foldl_nil, List.length_nil, if_pos rfl,
          if_neg hdlen]
        rfl
      · have hlen : rs.length ≠ 0 := fun h => hrs (List.length_eq_zero.mp h)
        rw [runTrans_all_read rs hr _ hrs]
        simp only [if_neg hlen, if_neg hdlen]
        rfl
  · rw [traceMonotone, hshape]
    refine List.chain'_cons'.mpr ⟨?_, chain'_delivered_read _ _⟩
    intro y hy
    exact statusLe_sent y

/-- Witness for the amended C1 theorem: the ordinary run
delivered-then-read from `sent` is monotone and ends at the maximum. -/
theorem C1_status_monotone_amended_witness :
    runTrans .sent ([.deliveredT] ++ [.readReceiptT]) =
      maxReached .sent ([.deliveredT] ++ [.readReceiptT]) ∧
    traceMonotone .sent ([.deliveredT] ++ [.readReceiptT]) :=
  C1_status_monotone_amended [.deliveredT] [.readReceiptT]
    (by decide) (by decide)

/-! ## Lemmas about the message table and pushes -/

theorem findMsg_append_of_none (l1 l2 : List Message) (i : MessageId)
    (h : findMsg l1 i = none) : findMsg (l1 ++ l2) i = findMsg l2 i := by
  induction l1 with
  | nil => rfl
  | cons m ms ih =>
    by_cases hm : m.id = i
    · rw [findMsg, if_pos hm] at h
      exact absurd h (by simp)
    · rw [findMsg, if_neg hm] at h
      show findMsg (m :: (ms ++ l2)) i = _
      rw [findMsg, if_neg hm]
      exact ih h

theorem findMsg_singleton_self (m : Message) (i : MessageId) (h : m.id = i) :
    findMsg [m] i = some m := by
  rw [findMsg, if_pos h]

theorem findMsg_setStatusList_self (l : List Message) (i : MessageId)
    (s : MessageStatus) :
    findMsg (setStatusList l i s) i =
      (findMsg l i).map (fun m => { m with status := s }) := by
  induction l with
  | nil => rfl
  | cons m ms ih =>
    by_cases hm : m.id = i
    · rw [setStatusList, if_pos hm, findMsg, findMsg, if_pos hm]
      have : ({ m with status := s } : Message).id = i := hm
      rw [if_pos this]
      rfl
    · rw [setStatusList, if_neg hm, findMsg, findMsg, if_neg hm, if_neg hm]
      exact ih

theorem sendPersonal_of_connected (st : ServerState) (ev : OutFrame)
    (u : UserId) (h : dictContains u st.active_connections = true) :
    CM.sendPersonal st ev u = [(u, ev)] := by
  rw [CM.sendPersonal, if_pos h]

theorem sendPersonal_of_offline (st : ServerState) (ev : OutFrame)
    (u : UserId) (h : dictContains u st.active_connections = false) :
    CM.sendPersonal st ev u = [] := by
  rw [CM.sendPersonal, h]
  rfl

/-- The persisted row built for a `"message"` frame (routes.py 75–88). -/
def mkRow (st : ServerState) (u : UserId) (mid : MessageId) (d : MsgData) :
    Message :=
  { id := mid, sender_id := u, receiver_id := d.receiver_id,
    group_id := d.group_id, content := d.content,
    message_type := d.message_type, file_url := d.file_url,
    status := .sent, created_at := st.now }

/-- Unfolding `handleMessageFrame` on a direct message (truthy
`receiver_id`). -/
theorem handleMessageFrame_direct (st : ServerState) (u : UserId)
    (mid : MessageId) (d : MsgData) (r : UserId)
    (hr : d.receiver_id = some r) (hne : r ≠ "") :
    handleMessageFrame st u mid d =
      (let m := mkRow st u mid d
       let st1 := { st with messages := st.messages ++ [m],
                            now := st.now + 1 }
       let st2 := if is_user_online st1 r
                  then setMessageStatus st1 mid .delivered else st1
       (st2, CM.sendPersonal st1 (.message m) r ++
         CM.sendPersonal st2 (.message m) u)) := by
  rw [handleMessageFrame]
  have : getTruthy d.receiver_id = some r := by
    rw [hr, getTruthy, if_neg hne]
  rw [this]
  rfl

/-- C3: processing an inbound direct-message frame from a connected sender
S to receiver R (in a state where Redis presence agrees with the registry
for R, as every reachable state does) persists the message with status
`sent`; the event is pushed to R's connection exactly when R has a live
registry entry; the stored status becomes `delivered` exactly in that same
case; and in both cases the echo — carrying the server-assigned id and
status `sent` — is pushed back to S's own connection. -/
theorem C3_direct_message_round_trip (st : ServerState) (S R : UserId)
    (mid : MessageId) (c mt : String) (fu : Option String)
    (gid : Option GroupId)
    (hagreeR : is_user_online st R = dictContains R st.active_connections)
    (hS : dictContains S st.active_connections = true)
    (hfresh : findMsg st.messages mid = none)
    (hRne : R ≠ "") :
    let d : MsgData := { content := c, message_type := mt, file_url := fu,
                         receiver_id := some R, group_id := gid }
    let m0 := mkRow st S mid d
    let res := handleMessageFrame st S mid d
    findMsg res.1.messages mid =
      some { m0 with
        status := if CM.sendDelivered st R then .delivered else .sent } ∧
    res.2 = (if CM.sendDelivered st R then [(R, OutFrame.message m0)]
             else []) ++ [(S, OutFrame.message m0)] := by
  intro d m0 res
  have hgt : getTruthy d.receiver_id = some R := by
    show getTruthy (some R) = some R
    rw [getTruthy, if_neg hRne]
  have honl : decide (R ∈ st.online_users) =
      dictContains R st.active_connections := hagreeR
  have hfind1 : findMsg (st.messages ++ [m0]) mid = some m0 := by
    rw [findMsg_append_of_none _ _ _ hfresh]
    exact findMsg_singleton_self m0 mid rfl
  show findMsg (handleMessageFrame st S mid d).1.messages mid = _ ∧
    (handleMessageFrame st S mid d).2 = _
  by_cases hcon : dictContains R st.active_connections = true
  · simp only [handleMessageFrame, hgt, directPart, CM.sendPersonal,
      CM.sendDelivered, setMessageStatus, is_user_online, honl, hcon,
      if_true, hS]
    refine ⟨?_, rfl⟩
    rw [findMsg_setStatusList_self]
    show (findMsg (st.messages ++ [m0]) mid).map _ = _
    rw [hfind1]
    rfl
  · have hcon' : dictContains R st.active_connections = false :=
      Bool.eq_false_iff.mpr hcon
    simp only [handleMessageFrame, hgt, directPart, CM.sendPersonal,
      CM.sendDelivered, setMessageStatus, is_user_online, honl, hcon',
      Bool.false_eq_true, if_false, hS, if_true]
    exact ⟨hfind1, rfl⟩

/-- Witness for C3 at a concrete reachable state: sender "s" and receiver
"r" both connected. -/
theorem C3_direct_message_round_trip_witness :
    let st : ServerState :=
      { active_connections := [("r", 2), ("s", 1)],
        online_users := ["r", "s"], messages := [], groups := [],
        group_members := [], now := 0 }
    let d : MsgData := { content := "hi", message_type := "text",
                         file_url := none, receiver_id := some "r",
                         group_id := none }
    let m0 := mkRow st "s" "m7" d
    let res := handleMessageFrame st "s" "m7" d
    findMsg res.1.messages "m7" =
      some { m0 with
        status := if CM.sendDelivered st "r" then .delivered else .sent } ∧
    res.2 = (if CM.sendDelivered st "r" then [("r", OutFrame.message m0)]
             else []) ++ [("s", OutFrame.message m0)] :=
  C3_direct_message_round_trip _ "s" "r" "m7" "hi" "text" none none
    (by decide) (by decide) (by decide) (by decide)

/-- C6: a direct message to a receiver R with no live connection (and whose
Redis presence agrees, as in every reachable state): the push guard of
`send_personal_message` is false — no frame is produced for R and no error
is raised (the handler is total) — the message is persisted and remains at
status `sent`, and the sender S still receives its echo. -/
theorem C6_offline_receiver (st : ServerState) (S R : UserId)
    (mid : MessageId) (c mt : String) (fu : Option String)
    (gid : Option GroupId)
    (hagreeR : is_user_online st R = dictContains R st.active_connections)
    (hS : dictContains S st.active_connections = true)
    (hfresh : findMsg st.messages mid = none)
    (hRne : R ≠ "")
    (hoff : dictContains R st.active_connections = false) :
    let d : MsgData := { content := c, message_type := mt, file_url := fu,
                         receiver_id := some R, group_id := gid }
    let m0 := mkRow st S mid d
    let res := handleMessageFrame st S mid d
    CM.sendDelivered st R = false ∧
    findMsg res.1.messages mid = some m0 ∧
    res.2 = [(S, OutFrame.message m0)] ∧
    ∀ p ∈ res.2, p.1 ≠ R := by
  intro d m0 res
  have hgt : getTruthy d.receiver_id = some R := by
    show getTruthy (some R) = some R
    rw [getTruthy, if_neg hRne]
  have honl : decide (R ∈ st.online_users) =
      dictContains R st.active_connections := hagreeR
  have hfind1 : findMsg (st.messages ++ [m0]) mid = some m0 := by
    rw [findMsg_append_of_none _ _ _ hfresh]
    exact findMsg_singleton_self m0 mid rfl
  have hSR : S ≠ R := by
    intro h
    rw [h, hoff] at hS
    exact absurd hS (by simp)
  refine ⟨hoff, ?_⟩
  show findMsg (handleMessageFrame st S mid d).1.messages mid = _ ∧
    (handleMessageFrame st S mid d).2 = _ ∧
    ∀ p ∈ (handleMessageFrame st S mid d).2, p.1 ≠ R
  simp only [handleMessageFrame, hgt, directPart, CM.sendPersonal,
    setMessageStatus, is_user_online, honl, hoff, Bool.false_eq_true,
    if_false, hS, if_true]
  refine ⟨hfind1, rfl, ?_⟩
  intro p hp
  simp only [List.nil_append, List.mem_singleton] at hp
  rw [hp]
  exact hSR

/-- Witness for C6: sender "s" connected, receiver "r" absent from both the
registry and the presence set. -/
theorem C6_offline_receiver_witness :
    let st : ServerState :=
      { active_connections := [("s", 1)], online_users := ["s"],
        messages := [], groups := [], group_members := [], now := 0 }
    let d : MsgData := { content := "hi", message_type := "text",
                         file_url := none, receiver_id := some "r",
                         group_id := none }
    let m0 := mkRow st "s" "m7" d
    let res := handleMessageFrame st "s" "m7" d
    CM.sendDelivered st "r" = false ∧
    findMsg res.1.messages "m7" = some m0 ∧
    res.2 = [("s", OutFrame.message m0)] ∧
    ∀ p ∈ res.2, p.1 ≠ "r" :=
  C6_offline_receiver _ "s" "r" "m7" "hi" "text" none none
    (by decide) (by decide) (by decide) (by decide) (by decide)

/-! ## C5: read receipts are not idempotent in their notification -/

/-- C5 counterexample: message "m1" from "s" to "r", both connected.
Processing the read-receipt frame for "m1" twice leaves the status `read`,
but each of the two calls pushes a read-receipt frame to the sender: two
outbound notifications in total, not exactly one (the condition on
routes.py line 145 checks only the receiver, not the current status). -/
theorem C5_counterexample :
    let m : Message :=
      { id := "m1", sender_id := "s", receiver_id := some "r",
        group_id := none, content := "hi", message_type := "text",
        file_url := none, status := .sent, created_at := 0 }
    let st : ServerState :=
      { active_connections := [("s", 1), ("r", 2)],
        online_users := ["s", "r"], messages := [m], groups := [],
        group_members := [], now := 1 }
    let r1 := handleReadReceipt st "r" "m1"
    let r2 := handleReadReceipt r1.1 "r" "m1"
    (findMsg r2.1.messages "m1").map (fun x => x.status) = some .read ∧
    r1.2 ++ r2.2 = [("s", OutFrame.read_receipt "m1" "r"),
      ("s", OutFrame.read_receipt "m1" "r")] ∧
    (r1.2 ++ r2.2).length ≠ 1 := by
  decide

/-- C5 amended: processing the read-receipt transition twice for the same
message (receiver R acknowledging message `mid`) leaves the stored status
`read` after both calls, and — when the original sender is connected —
EACH of the two calls pushes one read-receipt frame to the sender: the
second call is a no-op for the stored status but does produce a duplicate
notification. -/
theorem C5_read_receipt_twice (st : ServerState) (R : UserId)
    (mid : MessageId) (m : Message)
    (hm : findMsg st.messages mid = some m)
    (hrecv : m.receiver_id = some R)
    (hsender : dictContains m.sender_id st.active_connections = true) :
    let r1 := handleReadReceipt st R mid
    let r2 := handleReadReceipt r1.1 R mid
    findMsg r1.1.messages mid = some { m with status := .read } ∧
    findMsg r2.1.messages mid = some { m with status := .read } ∧
    r1.2 = [(m.sender_id, OutFrame.read_receipt mid R)] ∧
    r2.2 = [(m.sender_id, OutFrame.read_receipt mid R)] := by
  intro r1 r2
  have hfind1 : findMsg (setStatusList st.messages mid .read) mid =
      some { m with status := .read } := by
    rw [findMsg_setStatusList_self, hm]
    rfl
  have h1 : r1 = (setMessageStatus st mid .read,
      CM.sendPersonal (setMessageStatus st mid .read)
        (OutFrame.read_receipt mid R) m.sender_id) := by
    show handleReadReceipt st R mid = _
    unfold handleReadReceipt
    rw [hm]
    simp only [if_pos hrecv]
  have hrecv' : ({ m with status := MessageStatus.read } :
      Message).receiver_id = some R := hrecv
  have hfind2 : findMsg (setStatusList (setStatusList st.messages mid .read)
      mid .read) mid = some { m with status := .read } := by
    rw [findMsg_setStatusList_self, hfind1]
    rfl
  have h2 : r2 = (setMessageStatus r1.1 mid .read,
      CM.sendPersonal (setMessageStatus r1.1 mid .read)
        (OutFrame.read_receipt mid R) m.sender_id) := by
    show handleReadReceipt r1.1 R mid = _
    unfold handleReadReceipt
    rw [h1]
    show (match findMsg (setStatusList st.messages mid .read) mid with
      | none => _
      | some m => _) = _
    rw [hfind1]
    simp only [if_pos hrecv']
  constructor
  · rw [h1]
    exact hfind1
  constructor
  · rw [h2, h1]
    exact hfind2
  constructor
  · rw [h1]
    exact sendPersonal_of_connected _ _ _ hsender
  · rw [h2, h1]
    exact sendPersonal_of_connected _ _ _ hsender

/-- Witness for the amended C5 theorem at the concrete two-user state. -/
theorem C5_read_receipt_twice_witness :
    let m : Message :=
      { id := "m1", sender_id := "s", receiver_id := some "r",
        group_id := none, content := "hi", message_type := "text",
        file_url := none, status := .sent, created_at := 0 }
    let st : ServerState :=
      { active_connections := [("s", 1), ("r", 2)],
        online_users := ["s", "r"], messages := [m], groups := [],
        group_members := [], now := 1 }
    let r1 := handleReadReceipt st "r" "m1"
    let r2 := handleReadReceipt r1.1 "r" "m1"
    findMsg r1.1.messages "m1" = some { m with status := .read } ∧
    findMsg r2.1.messages "m1" = some { m with status := .read } ∧
    r1.2 = [(m.sender_id, OutFrame.read_receipt "m1" "r")] ∧
    r2.2 = [(m.sender_id, OutFrame.read_receipt "m1" "r")] :=
  C5_read_receipt_twice _ "r" "m1" _ (by decide) (by decide) (by decide)

/-! ## C10: group messages are fanned out without a sender-membership check -/

/-- C10: an inbound group-message frame naming an existing group `gid` is
persisted (status `sent`) and pushed to every connected member of the
group other than the sender, for EVERY sender S — the statement carries no
hypothesis that S is a member of the group, because the code performs no
such check (routes.py lines 115–125): a connected non-member's message is
persisted for the group and delivered to all live members. -/
theorem C10_group_message_no_membership_check (st : ServerState)
    (S : UserId) (mid : MessageId) (c mt : String) (fu : Option String)
    (gid : GroupId) (gr : GroupRow)
    (hS : dictContains S st.active_connections = true)
    (hfresh : findMsg st.messages mid = none)
    (hgne : gid ≠ "")
    (hgroup : st.groups.find? (fun g => g.id = gid) = some gr) :
    let d : MsgData := { content := c, message_type := mt, file_url := fu,
                         receiver_id := none, group_id := some gid }
    let m0 := mkRow st S mid d
    let res := handleMessageFrame st S mid d
    findMsg res.1.messages mid = some m0 ∧
    res.2 = ((st.group_members.filter
        (fun gm => gm.group_id = gid)).filter
        (fun gm => gm.user_id ≠ S)).flatMap
        (fun gm => if dictContains gm.user_id st.active_connections
                   then [(gm.user_id, OutFrame.message m0)] else [])
      ++ [(S, OutFrame.message m0)] ∧
    ∀ gm ∈ st.group_members, gm.group_id = gid → gm.user_id ≠ S →
      dictContains gm.user_id st.active_connections = true →
      (gm.user_id, OutFrame.message m0) ∈ res.2 := by
  intro d m0 res
  have hfind1 : findMsg (st.messages ++ [m0]) mid = some m0 := by
    rw [findMsg_append_of_none _ _ _ hfresh]
    exact findMsg_singleton_self m0 mid rfl
  have hgt : getTruthy d.receiver_id = none := rfl
  have hgt2 : getTruthy d.group_id = some gid := by
    show getTruthy (some gid) = some gid
    rw [getTruthy, if_neg hgne]
  have hmainA : findMsg (handleMessageFrame st S mid d).1.messages mid =
      some m0 := by
    simp only [handleMessageFrame, hgt, hgt2, groupPart, hgroup]
    exact hfind1
  have hmainB : (handleMessageFrame st S mid d).2 =
      ((st.group_members.filter
          (fun gm => gm.group_id = gid)).filter
          (fun gm => gm.user_id ≠ S)).flatMap
          (fun gm => if dictContains gm.user_id st.active_connections
                     then [(gm.user_id, OutFrame.message m0)] else [])
        ++ [(S, OutFrame.message m0)] := by
    simp only [handleMessageFrame, hgt, hgt2, groupPart, hgroup,
      CM.sendPersonal, hS, if_true]
    rfl
  refine ⟨hmainA, hmainB, ?_⟩
  intro gm hgm hgid hne hconn
  show (gm.user_id, OutFrame.message m0) ∈ (handleMessageFrame st S mid d).2
  rw [hmainB]
  refine List.mem_append.mpr (Or.inl ?_)
  rw [List.mem_flatMap]
  refine ⟨gm, ?_, ?_⟩
  · rw [List.mem_filter, List.mem_filter]
    exact ⟨⟨hgm, by simpa using hgid⟩, by simpa using hne⟩
  · rw [if_pos hconn]
    exact List.mem_singleton.mpr rfl

/-- Witness for C10: sender "x" is NOT a member of group "g1", yet the
message is persisted for the group and pushed to the connected member
"a". -/
theorem C10_group_message_no_membership_check_witness :
    let st : ServerState :=
      { active_connections := [("x", 1), ("a", 2)],
        online_users := ["x", "a"], messages := [],
        groups := [{ id := "g1", name := "G", created_by := "a" }],
        group_members :=
          [{ id := "gm1", group_id := "g1", user_id := "a",
             is_admin := true }],
        now := 0 }
    let d : MsgData := { content := "hi", message_type := "text",
                         file_url := none, receiver_id := none,
                         group_id := some "g1" }
    let m0 := mkRow st "x" "m9" d
    let res := handleMessageFrame st "x" "m9" d
    findMsg res.1.messages "m9" = some m0 ∧
    res.2 = ((st.group_members.filter
        (fun gm => gm.group_id = "g1")).filter
        (fun gm => gm.user_id ≠ "x")).flatMap
        (fun gm => if dictContains gm.user_id st.active_connections
                   then [(gm.user_id, OutFrame.message m0)] else [])
      ++ [("x", OutFrame.message m0)] ∧
    ∀ gm ∈ st.group_members, gm.group_id = "g1" → gm.user_id ≠ "x" →
      dictContains gm.user_id st.active_connections = true →
      (gm.user_id, OutFrame.message m0) ∈ res.2 :=
  C10_group_message_no_membership_check _ "x" "m9" "hi" "text" none "g1"
    { id := "g1", name := "G", created_by := "a" }
    (by decide) (by decide) (by decide) (by decide)

/-! ## C4: malformed frames -/

/-- An inbound frame whose processing raises: undecodable text, a missing
`"type"` tag, or a missing required field of a recognized tag. -/
def isMalformed (f : RawFrame) : Bool :=
  match f with
  | .undecodable => true
  | .obj none _ => true
  | .obj (some t) data =>
    if t = "message" then
      match data with
      | none => true
      | some d => d.content.isNone
    else if t = "typing" then
      match data with
      | none => true
      | some d => d.receiver_id.isNone || d.is_typing.isNone
    else if t = "read_receipt" then
      match data with
      | none => true
      | some d => d.message_id.isNone
    else false

theorem processFrame_error_iff (st : ServerState) (u : UserId)
    (mid : MessageId) (f : RawFrame) :
    processFrame st u mid f = .error () ↔ isMalformed f = true := by
  cases f with
  | undecodable => simp [processFrame, isMalformed]
  | obj ty data =>
    cases ty with
    | none => simp [processFrame, isMalformed]
    | some t =>
      by_cases h1 : t = "message"
      · subst h1
        cases data with
        | none => simp [processFrame, isMalformed]
        | some d =>
          cases hc : d.content with
          | none => simp [processFrame, isMalformed, hc]
          | some c => simp [processFrame, isMalformed, hc]
      · by_cases h2 : t = "typing"
        · subst h2
          cases data with
          | none => simp [processFrame, isMalformed]
          | some d =>
            cases hr : d.receiver_id with
            | none => simp [processFrame, isMalformed, hr]
            | some r =>
              cases hb : d.is_typing with
              | none => simp [processFrame, isMalformed, hr, hb]
              | some b => simp [processFrame, isMalformed, hr, hb]
        · by_cases h3 : t = "read_receipt"
          · subst h3
            cases data with
            | none => simp [processFrame, isMalformed]
            | some d =>
              cases hm : d.message_id with
              | none => simp [processFrame, isMalformed, hm]
              | some i => simp [processFrame, isMalformed, hm]
          · simp [processFrame, isMalformed, h1, h2, h3]

/-- C4 counterexample: user "u" is connected; the first inbound frame is a
`"message"` frame with no `content` key, followed by a well-formed message
frame.  The claim says the bad frame is dropped, the connection stays open
and the loop continues; the code's inner `try` catches only
`WebSocketDisconnect`, so the `KeyError` escapes to the outer handler,
which closes the socket with code 1008: the session ends, the well-formed
second frame is never processed (no message is ever persisted) and the
registry entry for "u" is not removed. -/
theorem C4_counterexample :
    let st := runCMOps initState [.connect "u" 1]
    let bad : RawFrame := .obj (some "message")
      (some { FrameData.empty with receiver_id := some "r" })
    let good : RawFrame := .obj (some "message")
      (some { FrameData.empty with
                content := some "hi", receiver_id := some "r" })
    let res := runLoop st "u" 0 [bad, good]
    res = (st, [], .closedPolicyViolation) ∧
    res.2.2 ≠ SessionEnd.disconnected ∧
    res.1.messages = [] ∧
    dictContains "u" res.1.active_connections = true := by
  decide

/-- C4 amended: a single malformed inbound frame (undecodable JSON or a
recognized frame missing a required field such as `content`) produces no
persisted message and no outbound push, but it does NOT merely drop the
frame: the exception escapes the receive loop, the connection is closed
with policy-violation code 1008, the remaining inbound frames are never
processed, and the registry/presence entries for the user are left in
place (`manager.disconnect` is not called on this path). -/
theorem C4_malformed_frame_closes (st : ServerState) (u : UserId) (n : Nat)
    (f : RawFrame) (fs : List RawFrame) (hf : isMalformed f = true) :
    runLoop st u n (f :: fs) = (st, [], .closedPolicyViolation) := by
  have herr : processFrame st u (mkMsgId n) f = .error () :=
    (processFrame_error_iff st u (mkMsgId n) f).mpr hf
  rw [runLoop, herr]

/-- Witness for the amended C4 theorem: one undecodable frame. -/
theorem C4_malformed_frame_closes_witness :
    runLoop (runCMOps initState [.connect "u" 1]) "u" 0
      [RawFrame.undecodable] =
    (runCMOps initState [.connect "u" 1], [], .closedPolicyViolation) :=
  C4_malformed_frame_closes _ "u" 0 RawFrame.undecodable [] (by decide)

/-! ## C8: the history fetch marks only the fetched page -/

theorem mem_insertDesc (x m : Message) (l : List Message) :
    x ∈ insertDesc m l ↔ x = m ∨ x ∈ l := by
  induction l with
  | nil => simp [insertDesc]
  | cons y ys ih =>
    rw [insertDesc]
    by_cases h : y.created_at < m.created_at
    · simp [h]
    · simp only [if_neg h, List.mem_cons, ih]
      tauto

theorem mem_sortByCreatedDesc (x : Message) (l : List Message) :
    x ∈ sortByCreatedDesc l ↔ x ∈ l := by
  induction l with
  | nil => simp [sortByCreatedDesc]
  | cons y ys ih =>
    show x ∈ insertDesc y (sortByCreatedDesc ys) ↔ _
    rw [mem_insertDesc, ih]
    simp

theorem findMsg_of_nodup_mem (l : List Message) (m : Message)
    (hnd : (l.map (fun x => x.id)).Nodup) (hm : m ∈ l) :
    findMsg l m.id = some m := by
  induction l with
  | nil => exact absurd hm (by simp)
  | cons h t ih =>
    rw [List.map_cons, List.nodup_cons] at hnd
    rcases List.mem_cons.mp hm with rfl | hmt
    · rw [findMsg, if_pos rfl]
    · have hne : h.id ≠ m.id := by
        intro he
        exact hnd.1 (he ▸ List.mem_map_of_mem (fun x => x.id) hmt)
      rw [findMsg, if_neg hne]
      exact ih hnd.2 hmt

theorem findMsg_map (f : Message → Message) (l : List Message)
    (i : MessageId) (hf : ∀ m, (f m).id = m.id) :
    findMsg (l.map f) i = (findMsg l i).map f := by
  induction l with
  | nil => rfl
  | cons h t ih =>
    rw [List.map_cons, findMsg, findMsg, hf h]
    by_cases hh : h.id = i
    · rw [if_pos hh, if_pos hh]
      rfl
    · rw [if_neg hh, if_neg hh]
      exact ih

theorem markRead_id (ids : List MessageId) (m : Message) :
    (markRead ids m).id = m.id := by
  rw [markRead]
  by_cases h : m.id ∈ ids
  · rw [if_pos h]
  · rw [if_neg h]

theorem setStatus_eq_self (m : Message) (h : m.status = .read) :
    ({ m with status := MessageStatus.read } : Message) = m := by
  cases m
  dsimp at h
  rw [h]

theorem id_inj_of_nodup (l : List Message) (a b : Message)
    (hnd : (l.map (fun x => x.id)).Nodup) (ha : a ∈ l) (hb : b ∈ l)
    (hid : a.id = b.id) : a = b := by
  induction l with
  | nil => exact absurd ha (by simp)
  | cons h t ih =>
    rw [List.map_cons, List.nodup_cons] at hnd
    rcases List.mem_cons.mp ha with rfl | hat
    · rcases List.mem_cons.mp hb with rfl | hbt
      · rfl
      · exact absurd (hid ▸ List.mem_map_of_mem (fun x => x.id) hbt) hnd.1
    · rcases List.mem_cons.mp hb with rfl | hbt
      · exact absurd (hid ▸ List.mem_map_of_mem (fun x => x.id) hat) hnd.1
      · exact ih hnd.2 hat hbt

theorem pageOf_subset (st : ServerState) (current peer : UserId)
    (skip limit : Nat) (m : Message)
    (hm : m ∈ pageOf st current peer skip limit) : m ∈ st.messages := by
  rw [pageOf] at hm
  have h1 := List.mem_of_mem_take hm
  have h2 := List.mem_of_mem_drop h1
  have h3 := (mem_sortByCreatedDesc m _).mp h2
  exact (List.mem_filter.mp h3).1

/-- C8 counterexample: the conversation between "c" and "u2" holds two
messages to "c", both at status `sent`; "c" fetches the history with
`limit = 1`.  Only the fetched page row ("m2", the newest) is marked
`read`; "m1" — a receiver-side message below `read` — is left at `sent`,
so the fetch does not transition *every* receiver-side unread message. -/
theorem C8_counterexample :
    let m1 : Message :=
      { id := "m1", sender_id := "u2", receiver_id := some "c",
        group_id := none, content := "a", message_type := "text",
        file_url := none, status := .sent, created_at := 0 }
    let m2 : Message :=
      { id := "m2", sender_id := "u2", receiver_id := some "c",
        group_id := none, content := "b", message_type := "text",
        file_url := none, status := .sent, created_at := 1 }
    let st : ServerState :=
      { active_connections := [], online_users := [],
        messages := [m1, m2], groups := [], group_members := [], now := 2 }
    let res := get_chat_history st "c" "u2" 0 1
    (findMsg res.1.messages "m2").map (fun x => x.status) = some .read ∧
    (findMsg res.1.messages "m1").map (fun x => x.status) = some .sent ∧
    (findMsg res.1.messages "m1").map (fun x => x.status) ≠ some .read := by
  decide

/-- C8 amended: a history fetch by C of the conversation with U marks as
`read` exactly the receiver-side below-`read` rows of the FETCHED PAGE
(the conversation ordered by `created_at` descending, after `skip` and
`limit`), not every receiver-side unread message of the conversation:
every page row addressed to C ends at status `read`; every row not
addressed to C (in particular every row C sent) is unchanged; and every
row outside the fetched page is unchanged. -/
theorem C8_history_marks_only_page (st : ServerState)
    (current peer : UserId) (skip limit : Nat)
    (hids : (st.messages.map (fun x => x.id)).Nodup) :
    let res := get_chat_history st current peer skip limit
    (∀ m ∈ pageOf st current peer skip limit,
      m.receiver_id = some current →
      findMsg res.1.messages m.id = some { m with status := .read }) ∧
    (∀ m ∈ st.messages, m.receiver_id ≠ some current →
      findMsg res.1.messages m.id = some m) ∧
    (∀ m ∈ st.messages, m ∉ pageOf st current peer skip limit →
      findMsg res.1.messages m.id = some m) := by
  intro res
  have hres : res.1.messages =
      st.messages.map (markRead (toMarkIds st current peer skip limit)) :=
    rfl
  have hfm : ∀ i : MessageId, findMsg res.1.messages i =
      (findMsg st.messages i).map
        (markRead (toMarkIds st current peer skip limit)) := by
    intro i
    rw [hres]
    exact findMsg_map _ _ _ (markRead_id _)
  have hmarked : ∀ m : Message, m ∈ st.messages →
      m.id ∈ toMarkIds st current peer skip limit →
      (m.receiver_id = some current ∧
        m ∈ pageOf st current peer skip limit) := by
    intro m hm hmid
    rw [toMarkIds] at hmid
    rcases List.mem_map.mp hmid with ⟨m', hm', hid⟩
    rcases List.mem_filter.mp hm' with ⟨hpage, hcond⟩
    have hprops := of_decide_eq_true hcond
    have hmem' : m' ∈ st.messages := pageOf_subset _ _ _ _ _ _ hpage
    have : m' = m := id_inj_of_nodup st.messages m' m hids hmem' hm hid
    subst this
    exact ⟨hprops.1, hpage⟩
  refine ⟨?_, ?_, ?_⟩
  · intro m hpage hrecv
    have hmem : m ∈ st.messages := pageOf_subset _ _ _ _ _ _ hpage
    rw [hfm, findMsg_of_nodup_mem st.messages m hids hmem]
    show some (markRead _ m) = _
    rw [markRead]
    by_cases hin : m.id ∈ toMarkIds st current peer skip limit
    · rw [if_pos hin]
    · rw [if_neg hin]
      have hread : m.status = .read := by
        by_contra hne
        exact hin (List.mem_map_of_mem (fun x => x.id)
          (List.mem_filter.mpr ⟨hpage, decide_eq_true ⟨hrecv, hne⟩⟩))
      rw [setStatus_eq_self m hread]
  · intro m hm hrecv
    rw [hfm, findMsg_of_nodup_mem st.messages m hids hm]
    show some (markRead _ m) = _
    rw [markRead, if_neg]
    intro hin
    exact hrecv (hmarked m hm hin).1
  · intro m hm hpage
    rw [hfm, findMsg_of_nodup_mem st.messages m hids hm]
    show some (markRead _ m) = _
    rw [markRead, if_neg]
    intro hin
    exact hpage (hmarked m hm hin).2

/-- Witness for the amended C8 theorem at the two-message conversation
with `limit = 1`. -/
theorem C8_history_marks_only_page_witness :
    let m1 : Message :=
      { id := "m1", sender_id := "u2", receiver_id := some "c",
        group_id := none, content := "a", message_type := "text",
        file_url := none, status := .sent, created_at := 0 }
    let m2 : Message :=
      { id := "m2", sender_id := "u2", receiver_id := some "c",
        group_id := none, content := "b", message_type := "text",
        file_url := none, status := .sent, created_at := 1 }
    let st : ServerState :=
      { active_connections := [], online_users := [],
        messages := [m1, m2], groups := [], group_members := [], now := 2 }
    let res := get_chat_history st "c" "u2" 0 1
    (∀ m ∈ pageOf st "c" "u2" 0 1, m.receiver_id = some "c" →
      findMsg res.1.messages m.id = some { m with status := .read }) ∧
    (∀ m ∈ st.messages, m.receiver_id ≠ some "c" →
      findMsg res.1.messages m.id = some m) ∧
    (∀ m ∈ st.messages, m ∉ pageOf st "c" "u2" 0 1 →
      findMsg res.1.messages m.id = some m) :=
  C8_history_marks_only_page _ "c" "u2" 0 1 (by decide)

/-! ## C9: last-admin protection on member removal -/

theorem adminCount_cons (x : GroupMember) (xs : List GroupMember)
    (g : GroupId) :
    adminCount (x :: xs) g =
      (if x.group_id = g ∧ x.is_admin = true then 1 else 0) +
        adminCount xs g := by
  by_cases hp : x.group_id = g ∧ x.is_admin = true
  · rw [adminCount, List.filter_cons, if_pos (decide_eq_true hp), if_pos hp]
    simp only [List.length_cons, adminCount]
    omega
  · rw [adminCount, List.filter_cons, if_neg (by simpa using hp), if_neg hp]
    simp only [adminCount]
    omega

theorem adminCount_eraseRow_not_counted (l : List GroupMember)
    (a : GroupMember) (g : GroupId)
    (h : ¬(a.group_id = g ∧ a.is_admin = true)) :
    adminCount (eraseRow l a) g = adminCount l g := by
  induction l with
  | nil => rfl
  | cons x xs ih =>
    rw [eraseRow]
    by_cases hx : x = a
    · rw [if_pos hx, adminCount_cons, hx, if_neg h]
      omega
    · rw [if_neg hx]
      show adminCount (x :: eraseRow xs a) g = _
      rw [adminCount_cons, adminCount_cons, ih]

theorem adminCount_le_eraseRow_add_one (l : List GroupMember)
    (a : GroupMember) (g : GroupId) :
    adminCount l g ≤ adminCount (eraseRow l a) g + 1 := by
  induction l with
  | nil => exact Nat.zero_le _
  | cons x xs ih =>
    rw [eraseRow]
    by_cases hx : x = a
    · rw [if_pos hx, adminCount_cons]
      by_cases hp : x.group_id = g ∧ x.is_admin = true
      · rw [if_pos hp]
        omega
      · rw [if_neg hp]
        omega
    · rw [if_neg hx]
      show adminCount (x :: xs) g ≤ adminCount (x :: eraseRow xs a) g + 1
      rw [adminCount_cons, adminCount_cons]
      omega

theorem not_mem_eraseRow_self (l : List GroupMember) (a : GroupMember)
    (hnd : l.Nodup) (ha : a ∈ l) : a ∉ eraseRow l a := by
  induction l with
  | nil => exact absurd ha (by simp)
  | cons x xs ih =>
    rw [List.nodup_cons] at hnd
    rw [eraseRow]
    by_cases hx : x = a
    · rw [if_pos hx]
      exact fun hmem => hnd.1 (hx ▸ hmem)
    · rw [if_neg hx]
      have hat : a ∈ xs := by
        rcases List.mem_cons.mp ha with rfl | h
        · exact absurd rfl hx
        · exact h
      intro hmem
      rcases List.mem_cons.mp hmem with rfl | h
      · exact hx rfl
      · exact ih hnd.2 hat h

/-- C9: member removal preserves the at-least-one-admin invariant.  Under
the route's own authorization premise (the caller removes itself or is an
admin of the group): (a) removing a member who is the group's sole admin
row is rejected with the last-admin error and no removal happens; (b)
removing an admin while a second admin row exists succeeds and deletes
exactly that row; (c) removing a non-admin member succeeds; (d) any
successful removal keeps every group that had at least one admin row with
at least one admin row. -/
theorem C9_last_admin_protection (st : ServerState) (current : UserId)
    (gid : GroupId) (mid : String) (gr : GroupRow) (member : GroupMember)
    (hg : st.groups.find? (fun g => g.id = gid) = some gr)
    (hmem : st.group_members.find?
      (fun gm => gm.id = mid ∧ gm.group_id = gid) = some member)
    (hauth : member.user_id = current ∨ isAdminOf st gid current = true) :
    (member.is_admin = true → adminCount st.group_members gid = 1 →
      remove_group_member st current gid mid = .error .lastAdmin) ∧
    (member.is_admin = true → 2 ≤ adminCount st.group_members gid →
      remove_group_member st current gid mid =
        .ok { st with group_members := eraseRow st.group_members member } ∧
      (st.group_members.Nodup →
        member ∉ eraseRow st.group_members member)) ∧
    (member.is_admin = false →
      remove_group_member st current gid mid =
        .ok { st with group_members := eraseRow st.group_members member } ∧
      (st.group_members.Nodup →
        member ∉ eraseRow st.group_members member)) ∧
    (∀ (st' : ServerState) (g : GroupId),
      remove_group_member st current gid mid = .ok st' →
      1 ≤ adminCount st.group_members g →
      1 ≤ adminCount st'.group_members g) := by
  have hmemin : member ∈ st.group_members := List.mem_of_find?_eq_some hmem
  have hpred := List.find?_some hmem
  have hprops : member.id = mid ∧ member.group_id = gid := by
    simpa using hpred
  have hguard : ¬(member.user_id ≠ current ∧
      isAdminOf st gid current = false) := by
    rintro ⟨hne, hfalse⟩
    rcases hauth with h | h
    · exact hne h
    · rw [h] at hfalse
      exact absurd hfalse (by simp)
  have hrem : remove_group_member st current gid mid =
      (if member.is_admin = true ∧ adminCount st.group_members gid ≤ 1 then
        .error .lastAdmin
      else .ok { st with
        group_members := eraseRow st.group_members member }) := by
    rw [remove_group_member, hg, hmem]
    simp only [if_neg hguard]
  have hnm : st.group_members.Nodup →
      member ∉ eraseRow st.group_members member :=
    fun hnd => not_mem_eraseRow_self _ _ hnd hmemin
  refine ⟨?_, ?_, ?_, ?_⟩
  · intro ha hcount
    rw [hrem, if_pos ⟨ha, by omega⟩]
  · intro ha hcount
    refine ⟨?_, hnm⟩
    rw [hrem, if_neg (by omega)]
  · intro ha
    refine ⟨?_, hnm⟩
    rw [hrem, if_neg (by rw [ha]; simp)]
  · intro st' g hok hpre
    rw [hrem] at hok
    by_cases hla : member.is_admin = true ∧ adminCount st.group_members gid ≤ 1
    · rw [if_pos hla] at hok
      exact absurd hok (by simp)
    · rw [if_neg hla] at hok
      have hst' : st'.group_members = eraseRow st.group_members member := by
        have := (Except.ok.inj hok).symm
        rw [this]
      rw [hst']
      by_cases hcounted : member.group_id = g ∧ member.is_admin = true
      · have hgg : g = gid := hcounted.1 ▸ hprops.2
        subst hgg
        have h2 : 2 ≤ adminCount st.group_members g := by
          rcases Nat.lt_or_ge (adminCount st.group_members g) 2 with h | h
          · exact absurd ⟨hcounted.2, by omega⟩ hla
          · exact h
        have := adminCount_le_eraseRow_add_one st.group_members member g
        omega
      · rw [adminCount_eraseRow_not_counted _ _ _ hcounted]
        exact hpre

/-- Witness for C9: group "g1" with admin "a" (row "r1") and regular
member "b" (row "r2"); admin "a" removes the non-admin row "r2". -/
theorem C9_last_admin_protection_witness :
    let st : ServerState :=
      { active_connections := [], online_users := [], messages := [],
        groups := [{ id := "g1", name := "G", created_by := "a" }],
        group_members :=
          [{ id := "r1", group_id := "g1", user_id := "a",
             is_admin := true },
           { id := "r2", group_id := "g1", user_id := "b",
             is_admin := false }],
        now := 0 }
    let row2 : GroupMember :=
      { id := "r2", group_id := "g1", user_id := "b", is_admin := false }
    remove_group_member st "a" "g1" "r2" =
      .ok { st with group_members := eraseRow st.group_members row2 } ∧
    (st.group_members.Nodup → row2 ∉ eraseRow st.group_members row2) := by
  intro st row2
  exact (C9_last_admin_protection st "a" "g1" "r2"
    { id := "g1", name := "G", created_by := "a" } row2
    (by decide) (by decide) (by decide)).2.2.1 rfl

end Chat
